import Mathlib

/-!
Verification of the KFE codec repository (`kfe_codec.py`, `kfe_loopback.py`).

Files are modelled as `List Nat` of byte values; fallible operations return
`Except String α` carrying the exact `ValueError` message the source raises.
`struct.pack`/`struct.unpack` on little-endian fields are modelled by explicit
base-256 digit decomposition; `struct.pack` range checking is modelled by the
guards in `_write_header`.  `math.ceil(data_size / FRAME_SIZE)` is modelled as
the exact natural-number ceiling division.
-/

namespace KFE

/-- `WIDTH = 3840` from `kfe_codec.py`. -/
def WIDTH : Nat := 3840

/-- `HEIGHT = 2160` from `kfe_codec.py`. -/
def HEIGHT : Nat := 2160

/-- `CHANNELS = 3` (RGB) from `kfe_codec.py`. -/
def CHANNELS : Nat := 3

/-- `FRAME_SIZE = WIDTH * HEIGHT * CHANNELS`: bytes per frame. -/
def FRAME_SIZE : Nat := WIDTH * HEIGHT * CHANNELS

/-- `HEADER_SIZE = struct.calcsize('<4sIIIQI') = 4+4+4+4+8+4 = 28`. -/
def HEADER_SIZE : Nat := 28

/-- `MAGIC = b'KFE0'` as byte values. -/
def MAGIC : List Nat := [75, 70, 69, 48]

/-- `struct.pack('<I', n)`: the four little-endian base-256 digits of `n`
(valid for `n < 2^32`, which every call site guarantees or checks). -/
def le32 (n : Nat) : List Nat :=
  [n % 256, n / 256 % 256, n / 65536 % 256, n / 16777216 % 256]

/-- `struct.pack('<Q', n)`: the eight little-endian base-256 digits of `n`. -/
def le64 (n : Nat) : List Nat :=
  [n % 256, n / 256 % 256, n / 65536 % 256, n / 16777216 % 256,
   n / 4294967296 % 256, n / 1099511627776 % 256,
   n / 281474976710656 % 256, n / 72057594037927936 % 256]

/-- `struct.unpack('<I', b)[0]` on the first four bytes of `l`. -/
def le32dec (l : List Nat) : Nat :=
  l.getD 0 0 + 256 * l.getD 1 0 + 65536 * l.getD 2 0 + 16777216 * l.getD 3 0

/-- `struct.unpack('<Q', b)[0]` on the first eight bytes of `l`. -/
def le64dec (l : List Nat) : Nat :=
  l.getD 0 0 + 256 * l.getD 1 0 + 65536 * l.getD 2 0 + 16777216 * l.getD 3 0 +
  4294967296 * l.getD 4 0 + 1099511627776 * l.getD 5 0 +
  281474976710656 * l.getD 6 0 + 72057594037927936 * l.getD 7 0

/-- The 28 header bytes
`struct.pack('<4sIIIQI', MAGIC, WIDTH, HEIGHT, CHANNELS, data_size, frame_count)`. -/
def mkHeader (data_size frame_count : Nat) : List Nat :=
  MAGIC ++ le32 WIDTH ++ le32 HEIGHT ++ le32 CHANNELS ++
    le64 data_size ++ le32 frame_count

/-- `_write_header` from `kfe_codec.py`: packs the header.  `struct.pack`
raises `struct.error` when `data_size` does not fit in a u64 or `frame_count`
does not fit in a u32; that range check is the guard here. -/
def _write_header (data_size frame_count : Nat) : Except String (List Nat) :=
  if data_size < 18446744073709551616 ∧ frame_count < 4294967296 then
    Except.ok (mkHeader data_size frame_count)
  else
    Except.error "struct.error: argument out of range"

/-- `_read_header` from `kfe_codec.py`: reads the first `HEADER_SIZE` bytes,
checks magic and geometry, and returns `(data_size, frame_count)` together
with the remaining file bytes (the read position after the header). -/
def _read_header (file : List Nat) : Except String (Nat × Nat × List Nat) :=
  if file.length < HEADER_SIZE then
    Except.error "Incomplete KFE header"
  else
    let magic := file.take 4
    let width := le32dec (file.drop 4)
    let height := le32dec (file.drop 8)
    let channels := le32dec (file.drop 12)
    let data_size := le64dec (file.drop 16)
    let frame_count := le32dec (file.drop 24)
    if magic ≠ MAGIC ∨ width ≠ WIDTH ∨ height ≠ HEIGHT ∨ channels ≠ CHANNELS then
      Except.error "Invalid KFE file"
    else
      Except.ok (data_size, frame_count, file.drop HEADER_SIZE)

/-- The `while True` read/pad/write loop of `encode`: repeatedly take a chunk
of up to `FRAME_SIZE` bytes, zero-pad a short chunk to `FRAME_SIZE`, and stop
on an empty read.  The first argument is an explicit bound on the number of
remaining input bytes (every non-empty read consumes at least one byte), which
makes the recursion structural; `encodeBody` instantiates it with the input
length. -/
def encodeChunks : Nat → List Nat → List Nat
  | _, [] => []
  | 0, _ :: _ => []
  | fuel + 1, a :: rest =>
    let chunk := (a :: rest).take FRAME_SIZE
    (chunk ++ List.replicate (FRAME_SIZE - chunk.length) 0) ++
      encodeChunks fuel ((a :: rest).drop FRAME_SIZE)

/-- The frame section written by `encode` for input bytes `P`. -/
def encodeBody (P : List Nat) : List Nat :=
  encodeChunks P.length P

/-- Round a nonnegative rational to the nearest integer, ties to even (the
rounding step of IEEE-754 round-to-nearest). -/
def roundHalfEven (x : ℚ) : ℤ :=
  if x - ⌊x⌋ < 1/2 then ⌊x⌋
  else if 1/2 < x - ⌊x⌋ then ⌊x⌋ + 1
  else if ⌊x⌋ % 2 = 0 then ⌊x⌋ else ⌊x⌋ + 1

/-- The IEEE-754 binary64 value nearest to `q` (round to nearest, ties to
even, 53-bit significand), for nonnegative finite `q` in the normal range —
the only values arising here.  CPython's `int / int` true division returns
exactly this correctly rounded double of the exact quotient. -/
def toDouble (q : ℚ) : ℚ :=
  if q = 0 then 0
  else (roundHalfEven (q / 2 ^ (Int.log 2 q - 52)) : ℚ) * 2 ^ (Int.log 2 q - 52)

/-- `math.ceil(a / b)` as the source computes it: `a / b` is binary64 float
division of the two integers, and `math.ceil` then takes the exact ceiling of
that double. -/
def math_ceil_div (a b : Nat) : Nat :=
  (Int.ceil (toDouble ((a : ℚ) / (b : ℚ)))).toNat

/-- `encode` from `kfe_codec.py`, as a function from the input file's bytes to
the output file's bytes.  `frame_count = math.ceil(data_size / FRAME_SIZE)`
goes through binary64 float division, modelled exactly by `math_ceil_div`. -/
def encode (P : List Nat) : Except String (List Nat) :=
  let data_size := P.length
  let frame_count := math_ceil_div data_size FRAME_SIZE
  match _write_header data_size frame_count with
  | Except.error e => Except.error e
  | Except.ok header => Except.ok (header ++ encodeBody P)

/-- The `for _ in range(frame_count)` loop of `decode`, followed by the final
`remaining != 0` check.  Arguments: frames still to read, the running
`remaining` counter, the unread file bytes.  Returns the loop's outcome and
the bytes written to the output file up to that point (on an incomplete frame
the loop raises before writing that frame). -/
def decodeLoop : Nat → Nat → List Nat → Except String Unit × List Nat
  | 0, remaining, _ =>
    (if remaining ≠ 0 then Except.error "Data size mismatch" else Except.ok (), [])
  | fc + 1, remaining, rest =>
    if rest.length < FRAME_SIZE then
      (Except.error "Incomplete frame data", [])
    else
      let frame := rest.take FRAME_SIZE
      let to_write := if FRAME_SIZE ≤ remaining then frame else frame.take remaining
      let r := decodeLoop fc (remaining - to_write.length) (rest.drop FRAME_SIZE)
      (r.1, to_write ++ r.2)

/-- `decode` from `kfe_codec.py`, as a function from the input file's bytes to
the outcome together with the state of the output file: `none` when the output
file was never created (the header failed to parse, before
`open(output_path, 'wb')`), `some w` when it was created and holds `w`. -/
def decode (file : List Nat) : Except String (List Nat) × Option (List Nat) :=
  match _read_header file with
  | Except.error e => (Except.error e, none)
  | Except.ok (data_size, frame_count, body) =>
    let r := decodeLoop frame_count data_size body
    (match r.1 with
     | Except.ok _ => Except.ok r.2
     | Except.error e => Except.error e, some r.2)

/-- `packet_to_frame` from `kfe_loopback.py`: length-prefix a packet and
zero-pad to exactly `FRAME_SIZE` bytes.  The guard makes
`struct.pack("<I", len(packet))` in range, so it is the plain `le32`. -/
def packet_to_frame (packet : List Nat) : Except String (List Nat) :=
  if FRAME_SIZE - 4 < packet.length then
    Except.error "Packet too large for a single frame"
  else
    Except.ok (le32 packet.length ++ packet ++
      List.replicate (FRAME_SIZE - 4 - packet.length) 0)

/-- `frame_to_packet` from `kfe_loopback.py`: check the frame length, read the
length prefix, check it, and return `frame[4 : 4 + length]`. -/
def frame_to_packet (frame : List Nat) : Except String (List Nat) :=
  if frame.length ≠ FRAME_SIZE then
    Except.error "Invalid frame length"
  else
    let length := le32dec (frame.take 4)
    if FRAME_SIZE - 4 < length then
      Except.error "Corrupted frame header"
    else
      Except.ok ((frame.drop 4).take length)

/-- The per-packet clock reads of `run_loopback`'s while-loop, with every
capture succeeding: each iteration records `send_ts` (one clock read), then
appends `clock - send_ts` to `rtts` (a second clock read).  Clock values are
modelled as exact rationals.  Returns the latency samples together with the
clock readings left unconsumed after the loop. -/
def collectRtts : Nat → List ℚ → List ℚ × List ℚ
  | 0, clocks => ([], clocks)
  | n + 1, clocks =>
    let send_ts := clocks.getD 0 0
    let recv_ts := clocks.getD 1 0
    let r := collectRtts n (clocks.drop 2)
    ((recv_ts - send_ts) :: r.1, r.2)

/-- The summary metrics printed by `run_loopback`. -/
structure LoopReport where
  rtts : List ℚ
  rtt_min : ℚ
  rtt_avg : ℚ
  rtt_max : ℚ
  elapsed : ℚ
  throughput : ℚ
deriving DecidableEq

/-- The metrics computation of `run_loopback` from `kfe_loopback.py`, for a
run in which every capture succeeds: `clocks` are the successive values
returned by the clock function (first read is `start_time`, then two per
iteration, then one for `elapsed`), and `pktLens` are the byte lengths of the
recovered packets (`len(packet)` accumulated into `bytes_total`). -/
def run_loopback_metrics (clocks : List ℚ) (pktLens : List Nat) : LoopReport :=
  let start_time := clocks.getD 0 0
  let c := collectRtts pktLens.length (clocks.drop 1)
  let rtts := c.1
  let bytes_total : ℚ := (pktLens.sum : ℚ)
  let elapsed := c.2.getD 0 0 - start_time
  let stats :=
    match rtts with
    | [] => ((0 : ℚ), (0 : ℚ), (0 : ℚ))
    | r :: rs => (rs.foldl min r, rtts.sum / (rtts.length : ℚ), rs.foldl max r)
  let throughput := if 0 < elapsed then bytes_total / elapsed else 0
  { rtts := rtts, rtt_min := stats.1, rtt_avg := stats.2.1, rtt_max := stats.2.2,
    elapsed := elapsed, throughput := throughput }

/-! ### Helper lemmas -/

lemma frame_size_eq : FRAME_SIZE = 24883200 := rfl

lemma mkHeader_cons (ds fc : Nat) (body : List Nat) :
    mkHeader ds fc ++ body =
      75 :: 70 :: 69 :: 48 ::
      0 :: 15 :: 0 :: 0 ::
      112 :: 8 :: 0 :: 0 ::
      3 :: 0 :: 0 :: 0 ::
      ds % 256 :: ds / 256 % 256 :: ds / 65536 % 256 :: ds / 16777216 % 256 ::
      ds / 4294967296 % 256 :: ds / 1099511627776 % 256 ::
      ds / 281474976710656 % 256 :: ds / 72057594037927936 % 256 ::
      fc % 256 :: fc / 256 % 256 :: fc / 65536 % 256 :: fc / 16777216 % 256 :: body := by
  simp [mkHeader, MAGIC, le32, le64, WIDTH, HEIGHT, CHANNELS]

lemma read_header_mkHeader (ds fc : Nat) (body : List Nat)
    (hds : ds < 18446744073709551616) (hfc : fc < 4294967296) :
    _read_header (mkHeader ds fc ++ body) = Except.ok (ds, fc, body) := by
  rw [_read_header, mkHeader_cons]
  rw [if_neg (by simp [HEADER_SIZE])]
  simp only [HEADER_SIZE, List.take_succ_cons, List.take_zero, List.drop_succ_cons,
    List.drop_zero, le32dec, le64dec, List.getD_cons_zero, List.getD_cons_succ]
  rw [if_neg (by norm_num [MAGIC, WIDTH, HEIGHT, CHANNELS])]
  simp only [Except.ok.injEq, Prod.mk.injEq]
  refine ⟨by omega, by omega, trivial⟩

lemma decodeLoop_ok : ∀ fc ds body, ds ≤ fc * FRAME_SIZE → fc * FRAME_SIZE ≤ body.length →
    decodeLoop fc ds body = (Except.ok (), body.take ds) := by
  intro fc
  induction fc with
  | zero =>
    intro ds body h1 h2
    have : ds = 0 := by omega
    subst this
    simp [decodeLoop]
  | succ fc ih =>
    intro ds body h1 h2
    rw [Nat.succ_mul, frame_size_eq] at h1 h2
    rw [decodeLoop]
    simp only [frame_size_eq]
    rw [if_neg (by push_neg; omega)]
    by_cases hds : 24883200 ≤ ds
    · simp only [if_pos hds]
      have hlt : (body.take 24883200).length = 24883200 := by
        simp only [List.length_take]; omega
      rw [hlt, ih (ds - 24883200) (body.drop 24883200)
        (by rw [frame_size_eq]; omega)
        (by rw [frame_size_eq]; simp only [List.length_drop]; omega)]
      have hsplit : body.take ds =
          body.take 24883200 ++ (body.drop 24883200).take (ds - 24883200) := by
        rw [← List.take_add, Nat.add_sub_cancel' hds]
      rw [hsplit]
    · simp only [if_neg hds]
      push_neg at hds
      have htw : (body.take 24883200).take ds = body.take ds := by
        rw [List.take_take]
        have hmin : min ds 24883200 = ds := by omega
        rw [hmin]
      have hlen : (body.take ds).length = ds := by
        simp only [List.length_take]; omega
      rw [htw, hlen, Nat.sub_self,
        ih 0 (body.drop 24883200) (by omega)
          (by rw [frame_size_eq]; simp only [List.length_drop]; omega)]
      simp

lemma decodeLoop_short : ∀ fc ds body, body.length < fc * FRAME_SIZE →
    (decodeLoop fc ds body).1 = Except.error "Incomplete frame data" := by
  intro fc
  induction fc with
  | zero => intro ds body h; rw [Nat.zero_mul] at h; omega
  | succ fc ih =>
    intro ds body h
    rw [Nat.succ_mul, frame_size_eq] at h
    rw [decodeLoop]
    simp only [frame_size_eq]
    by_cases hlen : body.length < 24883200
    · rw [if_pos hlen]
    · rw [if_neg hlen]
      push_neg at hlen
      have := ih (ds - (if FRAME_SIZE ≤ ds then body.take FRAME_SIZE
          else (body.take FRAME_SIZE).take ds).length) (body.drop 24883200)
        (by rw [frame_size_eq]; simp only [List.length_drop]; omega)
      simp only [frame_size_eq] at this
      exact this

lemma decodeLoop_mismatch : ∀ fc ds body, fc * FRAME_SIZE ≤ body.length →
    fc * FRAME_SIZE < ds →
    (decodeLoop fc ds body).1 = Except.error "Data size mismatch" := by
  intro fc
  induction fc with
  | zero =>
    intro ds body h1 h2
    rw [Nat.zero_mul] at h2
    simp [decodeLoop]
    omega
  | succ fc ih =>
    intro ds body h1 h2
    rw [Nat.succ_mul, frame_size_eq] at h1 h2
    rw [decodeLoop]
    simp only [frame_size_eq]
    rw [if_neg (by push_neg; omega)]
    rw [if_pos (show (24883200 : Nat) ≤ ds by omega)]
    have hlt : (body.take 24883200).length = 24883200 := by
      simp only [List.length_take]; omega
    simp only [frame_size_eq] at hlt
    rw [hlt]
    exact ih (ds - 24883200) (body.drop 24883200)
      (by rw [frame_size_eq]; simp only [List.length_drop]; omega)
      (by rw [frame_size_eq]; omega)

lemma decodeLoop_congr : ∀ fc ds b1 b2, b1.length = b2.length → b1.take ds = b2.take ds →
    decodeLoop fc ds b1 = decodeLoop fc ds b2 := by
  intro fc
  induction fc with
  | zero => intro ds b1 b2 hlen hpre; simp [decodeLoop]
  | succ fc ih =>
    intro ds b1 b2 hlen hpre
    rw [decodeLoop, decodeLoop, hlen]
    by_cases hshort : b2.length < FRAME_SIZE
    · rw [if_pos hshort, if_pos hshort]
    · rw [if_neg hshort, if_neg hshort]
      push_neg at hshort
      have hdlen : (b1.drop FRAME_SIZE).length = (b2.drop FRAME_SIZE).length := by
        simp only [List.length_drop, hlen]
      by_cases hds : FRAME_SIZE ≤ ds
      · simp only [if_pos hds]
        have htak : b1.take FRAME_SIZE = b2.take FRAME_SIZE := by
          have e1 : b1.take FRAME_SIZE = (b1.take ds).take FRAME_SIZE := by
            rw [List.take_take, Nat.min_eq_left hds]
          have e2 : b2.take FRAME_SIZE = (b2.take ds).take FRAME_SIZE := by
            rw [List.take_take, Nat.min_eq_left hds]
          rw [e1, e2, hpre]
        have hdrop : (b1.drop FRAME_SIZE).take (ds - (b1.take FRAME_SIZE).length) =
            (b2.drop FRAME_SIZE).take (ds - (b1.take FRAME_SIZE).length) := by
          have hl1 : (b1.take FRAME_SIZE).length = FRAME_SIZE := by
            simp only [List.length_take]
            exact Nat.min_eq_left (by omega)
          rw [hl1, ← List.drop_take, ← List.drop_take, hpre]
        rw [htak, ih _ _ _ hdlen (htak ▸ hdrop)]
      · simp only [if_neg hds]
        push_neg at hds
        have htw : (b1.take FRAME_SIZE).take ds = (b2.take FRAME_SIZE).take ds := by
          rw [List.take_take, List.take_take, Nat.min_eq_left (Nat.le_of_lt hds),
            hpre]
        have hzero : ds - ((b1.take FRAME_SIZE).take ds).length = 0 := by
          simp only [List.take_take, List.length_take]
          omega
        rw [htw, ih (ds - ((b2.take FRAME_SIZE).take ds).length) _ _ hdlen ?_]
        rw [htw] at hzero
        rw [hzero]
        rfl

lemma encodeChunks_spec : ∀ fuel P, P.length ≤ fuel →
    encodeChunks fuel P =
      P ++ List.replicate
        ((P.length + FRAME_SIZE - 1) / FRAME_SIZE * FRAME_SIZE - P.length) 0 := by
  intro fuel
  induction fuel with
  | zero =>
    intro P hP
    have hnil : P = [] := List.eq_nil_of_length_eq_zero (by omega)
    subst hnil
    rw [encodeChunks, frame_size_eq]
    norm_num
  | succ fuel ih =>
    intro P hP
    match P with
    | [] => rw [encodeChunks, frame_size_eq]; norm_num
    | a :: rest =>
      have hstep : encodeChunks (fuel + 1) (a :: rest) =
          ((a :: rest).take FRAME_SIZE ++
            List.replicate (FRAME_SIZE - ((a :: rest).take FRAME_SIZE).length) 0) ++
            encodeChunks fuel ((a :: rest).drop FRAME_SIZE) := rfl
      have hlen : (a :: rest).length = rest.length + 1 := List.length_cons a rest
      have hfuel : ((a :: rest).drop FRAME_SIZE).length ≤ fuel := by
        simp only [List.length_drop, hlen]
        have := frame_size_eq
        simp only [List.length_cons] at hP
        omega
      rw [hstep, ih _ hfuel]
      by_cases hsmall : (a :: rest).length ≤ FRAME_SIZE
      · rw [List.take_of_length_le hsmall, List.drop_eq_nil_of_le hsmall]
        have hc2 : (([] : List Nat).length + FRAME_SIZE - 1) / FRAME_SIZE * FRAME_SIZE -
            ([] : List Nat).length = 0 := by
          rw [frame_size_eq]; norm_num
        rw [hc2]
        have hc : FRAME_SIZE - (a :: rest).length =
            ((a :: rest).length + FRAME_SIZE - 1) / FRAME_SIZE * FRAME_SIZE -
              (a :: rest).length := by
          rw [frame_size_eq] at hsmall ⊢
          simp only [hlen] at hsmall ⊢
          omega
        rw [← hc]
        simp
      · push_neg at hsmall
        have htlen : ((a :: rest).take FRAME_SIZE).length = FRAME_SIZE := by
          simp only [List.length_take]
          exact Nat.min_eq_left (by omega)
        rw [htlen, Nat.sub_self, List.replicate_zero, List.append_nil]
        have hdlen : ((a :: rest).drop FRAME_SIZE).length =
            (a :: rest).length - FRAME_SIZE := List.length_drop _ _
        rw [hdlen]
        have hc : ((a :: rest).length - FRAME_SIZE + FRAME_SIZE - 1) / FRAME_SIZE *
              FRAME_SIZE - ((a :: rest).length - FRAME_SIZE) =
            ((a :: rest).length + FRAME_SIZE - 1) / FRAME_SIZE * FRAME_SIZE -
              (a :: rest).length := by
          rw [frame_size_eq] at hsmall ⊢
          simp only [hlen] at hsmall ⊢
          omega
        rw [hc, ← List.append_assoc, List.take_append_drop]

lemma encodeBody_spec (P : List Nat) :
    encodeBody P =
      P ++ List.replicate
        ((P.length + FRAME_SIZE - 1) / FRAME_SIZE * FRAME_SIZE - P.length) 0 :=
  encodeChunks_spec P.length P le_rfl

lemma le_ceil_mul (n : Nat) : n ≤ (n + FRAME_SIZE - 1) / FRAME_SIZE * FRAME_SIZE := by
  rw [frame_size_eq]
  omega

lemma encodeBody_length (P : List Nat) :
    (encodeBody P).length = (P.length + FRAME_SIZE - 1) / FRAME_SIZE * FRAME_SIZE := by
  rw [encodeBody_spec]
  simp only [List.length_append, List.length_replicate]
  have := le_ceil_mul P.length
  omega

lemma rhe_intCast (n : ℤ) : roundHalfEven (n : ℚ) = n := by
  unfold roundHalfEven
  simp [Int.floor_intCast]

lemma rhe_ge (x : ℚ) : x - 1/2 ≤ (roundHalfEven x : ℚ) := by
  have h1 := Int.floor_le x
  have h2 := Int.lt_floor_add_one x
  unfold roundHalfEven
  split
  · linarith
  · split
    · push_cast
      linarith
    · split <;> push_cast <;> linarith

lemma rhe_le (x : ℚ) : (roundHalfEven x : ℚ) ≤ x + 1/2 := by
  have h1 := Int.floor_le x
  have h2 := Int.lt_floor_add_one x
  unfold roundHalfEven
  split
  · linarith
  · split
    · push_cast
      linarith
    · split <;> push_cast <;> linarith

lemma toDouble_sandwich (q : ℚ) (h : 0 < q) :
    q - 2 ^ (Int.log 2 q - 52) / 2 ≤ toDouble q ∧
    toDouble q ≤ q + 2 ^ (Int.log 2 q - 52) / 2 := by
  have hu : (0 : ℚ) < 2 ^ (Int.log 2 q - 52) := zpow_pos (by norm_num) _
  unfold toDouble
  rw [if_neg (ne_of_gt h)]
  set u : ℚ := 2 ^ (Int.log 2 q - 52) with hudef
  have hg := rhe_ge (q / u)
  have hl := rhe_le (q / u)
  constructor
  · have := mul_le_mul_of_nonneg_right hg (le_of_lt hu)
    rw [sub_mul, div_mul_cancel₀ _ (ne_of_gt hu)] at this
    linarith
  · have := mul_le_mul_of_nonneg_right hl (le_of_lt hu)
    rw [add_mul, div_mul_cancel₀ _ (ne_of_gt hu)] at this
    linarith

lemma int_log_eq (q : ℚ) (z : ℤ) (h0 : 0 < q) (h1 : 2 ^ z ≤ q) (h2 : q < 2 ^ (z + 1)) :
    Int.log 2 q = z := by
  have hl : (2 : ℚ) ^ (Int.log 2 q) ≤ q := Int.zpow_log_le_self (by norm_num) h0
  have hr : q < (2 : ℚ) ^ (Int.log 2 q + 1) := Int.lt_zpow_succ_log_self (by norm_num) q
  by_contra hne
  rcases lt_or_gt_of_ne hne with hlt | hgt
  · have : (2 : ℚ) ^ (Int.log 2 q + 1) ≤ 2 ^ z :=
      (zpow_le_zpow_iff_right₀ (by norm_num : (1:ℚ) < 2)).mpr (by omega)
    linarith
  · have : (2 : ℚ) ^ (z + 1) ≤ 2 ^ (Int.log 2 q) :=
      (zpow_le_zpow_iff_right₀ (by norm_num : (1:ℚ) < 2)).mpr (by omega)
    linarith

lemma toDouble_eq_of (q : ℚ) (z : ℤ) (h0 : 0 < q) (h1 : 2 ^ z ≤ q) (h2 : q < 2 ^ (z + 1)) :
    toDouble q = (roundHalfEven (q / 2 ^ (z - 52)) : ℚ) * 2 ^ (z - 52) := by
  unfold toDouble
  rw [if_neg (ne_of_gt h0), int_log_eq q z h0 h1 h2]

lemma toDouble_natCast (n : Nat) (h0 : 0 < n) (h52 : n ≤ 2 ^ 52) :
    toDouble (n : ℚ) = n := by
  have hne : n ≠ 0 := Nat.pos_iff_ne_zero.mp h0
  have hk : Nat.log2 n ≤ 52 := by
    have h53 : n < 2 ^ 53 := lt_of_le_of_lt h52 (by norm_num)
    have := (Nat.log2_lt hne).mpr h53
    omega
  have h1 : (2 : ℚ) ^ ((Nat.log2 n : ℤ)) ≤ (n : ℚ) := by
    rw [zpow_natCast]
    exact_mod_cast Nat.log2_self_le hne
  have h2 : (n : ℚ) < 2 ^ ((Nat.log2 n : ℤ) + 1) := by
    rw [show (Nat.log2 n : ℤ) + 1 = ((Nat.log2 n + 1 : ℕ) : ℤ) by push_cast; ring,
      zpow_natCast]
    exact_mod_cast Nat.lt_log2_self
  have hpos : (0 : ℚ) < (n : ℚ) := by exact_mod_cast h0
  rw [toDouble_eq_of (n : ℚ) (Nat.log2 n) hpos h1 h2]
  have hs : (Nat.log2 n : ℤ) - 52 = -(((52 - Nat.log2 n : ℕ) : ℤ)) := by omega
  rw [hs, zpow_neg, div_eq_mul_inv, inv_inv]
  have hx : (n : ℚ) * (2 : ℚ) ^ (((52 - Nat.log2 n : ℕ) : ℤ)) =
      (((n * 2 ^ (52 - Nat.log2 n) : ℕ) : ℤ) : ℚ) := by
    rw [zpow_natCast]
    push_cast
    ring
  rw [hx, rhe_intCast]
  push_cast
  rw [zpow_natCast, mul_assoc, mul_inv_cancel₀ (by positivity), mul_one]

lemma math_ceil_div_exact (ds : Nat) (h : ds ≤ 2 ^ 29 * FRAME_SIZE) :
    math_ceil_div ds FRAME_SIZE = (ds + FRAME_SIZE - 1) / FRAME_SIZE := by
  rw [frame_size_eq] at h ⊢
  rw [math_ceil_div]
  rcases Nat.eq_zero_or_pos ds with h0 | h0
  · subst h0
    norm_num [toDouble]
  · have hmod := Nat.div_add_mod ds 24883200
    set n := ds / 24883200 with hn
    set r := ds % 24883200 with hr
    have hrlt : r < 24883200 := Nat.mod_lt ds (by norm_num)
    rcases Nat.eq_zero_or_pos r with hr0 | hr1
    · have hds : ds = 24883200 * n := by omega
      have hn1 : 1 ≤ n := by omega
      have hq : (ds : ℚ) / ((24883200 : ℕ) : ℚ) = (n : ℚ) := by
        rw [hds]
        push_cast
        rw [mul_comm, mul_div_assoc]
        norm_num
      rw [hq, toDouble_natCast n hn1 (by omega), Int.ceil_natCast, Int.toNat_natCast]
      omega
    · have hn29 : n + 1 ≤ 2 ^ 29 := by omega
      have hqpos : (0 : ℚ) < (ds : ℚ) / ((24883200 : ℕ) : ℚ) := by
        apply div_pos
        · exact_mod_cast h0
        · norm_num
      have hq : (ds : ℚ) / ((24883200 : ℕ) : ℚ) = (n : ℚ) + (r : ℚ) / 24883200 := by
        rw [show ds = 24883200 * n + r by omega]
        push_cast
        ring
      have hql : (n : ℚ) + 1 / 24883200 ≤ (ds : ℚ) / ((24883200 : ℕ) : ℚ) := by
        rw [hq]
        have hr1q : (1 : ℚ) ≤ (r : ℚ) := by exact_mod_cast hr1
        have hd : (1 : ℚ) / 24883200 ≤ (r : ℚ) / 24883200 :=
          (div_le_div_iff_of_pos_right (by norm_num)).mpr hr1q
        linarith
      have hqu : (ds : ℚ) / ((24883200 : ℕ) : ℚ) ≤ (n : ℚ) + 1 - 1 / 24883200 := by
        rw [hq]
        have hrq : (r : ℚ) ≤ 24883199 := by
          have : r ≤ 24883199 := by omega
          exact_mod_cast this
        have hd : (r : ℚ) / 24883200 ≤ (24883199 : ℚ) / 24883200 :=
          (div_le_div_iff_of_pos_right (by norm_num)).mpr hrq
        have he : (24883199 : ℚ) / 24883200 = 1 - 1 / 24883200 := by norm_num
        linarith
      set q : ℚ := (ds : ℚ) / ((24883200 : ℕ) : ℚ) with hqdef
      have hzle : Int.log 2 q ≤ 28 := by
        by_contra hz
        push_neg at hz
        have h1 : (2 : ℚ) ^ (29 : ℤ) ≤ 2 ^ (Int.log 2 q) :=
          (zpow_le_zpow_iff_right₀ (by norm_num : (1:ℚ) < 2)).mpr (by omega)
        have h2 : (2 : ℚ) ^ (Int.log 2 q) ≤ q := Int.zpow_log_le_self (by norm_num) hqpos
        have h29 : (2 : ℚ) ^ (29 : ℤ) = 536870912 := by
          rw [show (29 : ℤ) = ((29 : ℕ) : ℤ) from rfl, zpow_natCast]
          norm_num
        have hn29q : (n : ℚ) + 1 ≤ 536870912 := by exact_mod_cast hn29
        linarith
      have hulp : (2 : ℚ) ^ (Int.log 2 q - 52) ≤ 1 / 16777216 := by
        have hle : (2 : ℚ) ^ (Int.log 2 q - 52) ≤ 2 ^ (-24 : ℤ) :=
          (zpow_le_zpow_iff_right₀ (by norm_num : (1:ℚ) < 2)).mpr (by omega)
        have he : (2 : ℚ) ^ (-24 : ℤ) = 1 / 16777216 := by
          rw [show (-24 : ℤ) = -((24 : ℕ) : ℤ) from rfl, zpow_neg, zpow_natCast]
          norm_num
        rw [he] at hle
        exact hle
      have hupos : (0 : ℚ) < 2 ^ (Int.log 2 q - 52) := zpow_pos (by norm_num) _
      obtain ⟨hsl, hsu⟩ := toDouble_sandwich q hqpos
      have hlow : (n : ℚ) < toDouble q := by linarith
      have hhigh : toDouble q ≤ (n : ℚ) + 1 := by linarith
      have hceil : Int.ceil (toDouble q) = (n : ℤ) + 1 := by
        have h1 : (n : ℤ) < Int.ceil (toDouble q) :=
          Int.lt_ceil.mpr (by push_cast; exact hlow)
        have h2 : Int.ceil (toDouble q) ≤ (n : ℤ) + 1 :=
          Int.ceil_le.mpr (by push_cast; exact hhigh)
        omega
      rw [hceil, show (n : ℤ) + 1 = ((n + 1 : ℕ) : ℤ) by push_cast; ring,
        Int.toNat_natCast]
      omega

lemma math_ceil_div_bug :
    math_ceil_div (2 ^ 29 * FRAME_SIZE + 1) FRAME_SIZE = 2 ^ 29 := by
  rw [math_ceil_div, frame_size_eq]
  have hq : ((2 ^ 29 * 24883200 + 1 : ℕ) : ℚ) / ((24883200 : ℕ) : ℚ) =
      536870912 + 1 / 24883200 := by
    push_cast
    rw [div_eq_iff (by norm_num : (24883200 : ℚ) ≠ 0)]
    norm_num
  rw [hq]
  have h0 : (0 : ℚ) < 536870912 + 1 / 24883200 := by norm_num
  have h1 : (2 : ℚ) ^ (29 : ℤ) ≤ 536870912 + 1 / 24883200 := by
    rw [show (29 : ℤ) = ((29 : ℕ) : ℤ) from rfl, zpow_natCast]
    norm_num
  have h2 : 536870912 + 1 / 24883200 < (2 : ℚ) ^ ((29 : ℤ) + 1) := by
    rw [show (29 : ℤ) + 1 = ((30 : ℕ) : ℤ) by norm_num, zpow_natCast]
    norm_num
  rw [toDouble_eq_of _ 29 h0 h1 h2]
  have hexp : (29 : ℤ) - 52 = -((23 : ℕ) : ℤ) := by norm_num
  have hx : (536870912 + 1 / 24883200 : ℚ) / 2 ^ ((29 : ℤ) - 52) =
      4503599627370496 + 8388608 / 24883200 := by
    rw [hexp, zpow_neg, zpow_natCast, div_eq_mul_inv, inv_inv]
    norm_num
  rw [hx]
  have hfloor : ⌊(4503599627370496 + 8388608 / 24883200 : ℚ)⌋ =
      4503599627370496 := by
    rw [Int.floor_eq_iff]
    constructor
    · push_cast
      norm_num
    · push_cast
      norm_num
  rw [roundHalfEven, hfloor, if_pos (by push_cast; norm_num)]
  have hval : ((4503599627370496 : ℤ) : ℚ) * 2 ^ ((29 : ℤ) - 52) = 536870912 := by
    rw [hexp, zpow_neg, zpow_natCast]
    push_cast
    norm_num
  rw [hval, show (536870912 : ℚ) = ((536870912 : ℕ) : ℚ) by norm_num,
    Int.ceil_natCast, Int.toNat_natCast]
  norm_num

lemma encode_eq_of (P : List Nat) (ds fc : Nat) (hds : P.length = ds)
    (hfc : math_ceil_div ds FRAME_SIZE = fc)
    (h1 : ds < 18446744073709551616) (h2 : fc < 4294967296) :
    encode P = Except.ok (mkHeader ds fc ++ encodeBody P) := by
  simp only [encode, _write_header, hds, hfc]
  rw [if_pos ⟨h1, h2⟩]

lemma encode_ok (P : List Nat) (h : P.length ≤ 2 ^ 29 * FRAME_SIZE) :
    encode P = Except.ok
      (mkHeader P.length ((P.length + FRAME_SIZE - 1) / FRAME_SIZE) ++ encodeBody P) := by
  have hfc : (P.length + FRAME_SIZE - 1) / FRAME_SIZE < 4294967296 := by
    rw [frame_size_eq] at h ⊢
    omega
  have hds : P.length < 18446744073709551616 := by
    rw [frame_size_eq] at h
    omega
  exact encode_eq_of P P.length _ rfl (math_ceil_div_exact P.length h) hds hfc

lemma encode_bug :
    encode (List.replicate (2 ^ 29 * FRAME_SIZE + 1) 0) =
      Except.ok (mkHeader (2 ^ 29 * FRAME_SIZE + 1) (2 ^ 29) ++
        encodeBody (List.replicate (2 ^ 29 * FRAME_SIZE + 1) 0)) :=
  encode_eq_of _ (2 ^ 29 * FRAME_SIZE + 1) (2 ^ 29)
    (List.length_replicate _ _) math_ceil_div_bug
    (by rw [frame_size_eq]; norm_num) (by norm_num)

lemma decode_error_of (file : List Nat) (ds fc : Nat) (body : List Nat) (e : String)
    (hread : _read_header file = Except.ok (ds, fc, body))
    (hloop : (decodeLoop fc ds body).1 = Except.error e) :
    (decode file).1 = Except.error e := by
  simp only [decode, hread, hloop]

lemma mkHeader_length (ds fc : Nat) : (mkHeader ds fc).length = 28 := by
  simp [mkHeader, MAGIC, le32, le64]

lemma le32dec_le32 (n : Nat) (h : n < 4294967296) : le32dec (le32 n) = n := by
  simp only [le32, le32dec, List.getD_cons_zero, List.getD_cons_succ]
  omega

lemma packet_to_frame_ok (packet : List Nat) (h : packet.length ≤ FRAME_SIZE - 4) :
    packet_to_frame packet = Except.ok (le32 packet.length ++ packet ++
      List.replicate (FRAME_SIZE - 4 - packet.length) 0) := by
  rw [packet_to_frame, if_neg (by omega)]

lemma packet_frame_length (packet : List Nat) (h : packet.length ≤ FRAME_SIZE - 4) :
    (le32 packet.length ++ packet ++
      List.replicate (FRAME_SIZE - 4 - packet.length) 0).length = FRAME_SIZE := by
  simp only [List.length_append, List.length_replicate, le32, List.length_cons,
    List.length_nil]
  rw [frame_size_eq] at h ⊢
  omega

/-! ### Claim theorems -/

/-- C1 counterexample: at payload length `2^29 * FRAME_SIZE + 1` the
float-based `math.ceil(data_size / FRAME_SIZE)` of the source rounds the
quotient down to `2^29`, so encode succeeds with a header declaring `2^29`
frames, and decoding the container it produced fails with the
data-size-mismatch error instead of yielding the payload back. -/
theorem C1_counterexample :
    encode (List.replicate (2 ^ 29 * FRAME_SIZE + 1) 0) =
      Except.ok (mkHeader (2 ^ 29 * FRAME_SIZE + 1) (2 ^ 29) ++
        encodeBody (List.replicate (2 ^ 29 * FRAME_SIZE + 1) 0)) ∧
    (decode (mkHeader (2 ^ 29 * FRAME_SIZE + 1) (2 ^ 29) ++
        encodeBody (List.replicate (2 ^ 29 * FRAME_SIZE + 1) 0))).1 =
      Except.error "Data size mismatch" := by
  refine ⟨encode_bug, ?_⟩
  have hds : 2 ^ 29 * FRAME_SIZE + 1 < 18446744073709551616 := by
    rw [frame_size_eq]
    norm_num
  have hfc : (2 ^ 29 : Nat) < 4294967296 := by norm_num
  have hlen : 2 ^ 29 * FRAME_SIZE ≤
      (encodeBody (List.replicate (2 ^ 29 * FRAME_SIZE + 1) 0)).length := by
    rw [encodeBody_length, List.length_replicate, frame_size_eq]
    have h29 : (2 : Nat) ^ 29 = 536870912 := by norm_num
    rw [h29]
    omega
  have hmis : 2 ^ 29 * FRAME_SIZE < 2 ^ 29 * FRAME_SIZE + 1 := Nat.lt_succ_self _
  exact decode_error_of _ (2 ^ 29 * FRAME_SIZE + 1) (2 ^ 29) _ _
    (read_header_mkHeader _ _ _ hds hfc)
    (decodeLoop_mismatch (2 ^ 29) (2 ^ 29 * FRAME_SIZE + 1) _ hlen hmis)

/-- C1 (amended): for every byte payload `P` of length at most
`2^29 * FRAME_SIZE` (about 1.3 · 10^16 bytes — in this range the source's
float-based `math.ceil` provably equals the exact ceiling; beyond it the
frame count can be under-counted), encode succeeds and decoding the container
it produces yields exactly `P` (and the decoded output file holds exactly
`P`).  The bound covers the empty payload and lengths `FRAME_SIZE - 1`,
`FRAME_SIZE`, `FRAME_SIZE + k`. -/
theorem C1_container_roundtrip (P : List Nat) (h : P.length ≤ 2 ^ 29 * FRAME_SIZE) :
    ∃ C, encode P = Except.ok C ∧ decode C = (Except.ok P, some P) := by
  refine ⟨_, encode_ok P h, ?_⟩
  have hds : P.length < 18446744073709551616 := by
    rw [frame_size_eq] at h
    omega
  have hfc : (P.length + FRAME_SIZE - 1) / FRAME_SIZE < 4294967296 := by
    rw [frame_size_eq] at h ⊢
    omega
  have hloop : decodeLoop ((P.length + FRAME_SIZE - 1) / FRAME_SIZE) P.length
      (encodeBody P) = (Except.ok (), (encodeBody P).take P.length) :=
    decodeLoop_ok _ _ _ (le_ceil_mul P.length) (le_of_eq (encodeBody_length P).symm)
  have htake : (encodeBody P).take P.length = P := by
    rw [encodeBody_spec, List.take_left]
  simp only [decode, read_header_mkHeader _ _ _ hds hfc, hloop, htake]

/-- C1 witness: the empty payload round-trips through its container. -/
theorem C1_container_roundtrip_witness :
    ∃ C, encode ([] : List Nat) = Except.ok C ∧
      decode C = (Except.ok ([] : List Nat), some ([] : List Nat)) :=
  C1_container_roundtrip [] (by simp)

/-- C2 counterexample: with the six clock readings 0.0, 1.0, 1.2, 2.0, 2.5,
3.0 and two packets whose recovered lengths sum to 3 bytes (as the claim
states), the loop's latency samples and elapsed time are as claimed but the
throughput is 1 byte/second, which prints as 1.00, not the claimed 1.33. -/
theorem C2_counterexample :
    (run_loopback_metrics [0, 1, 6/5, 2, 5/2, 3] [1, 2]).rtts = [1/5, 1/2] ∧
    (run_loopback_metrics [0, 1, 6/5, 2, 5/2, 3] [1, 2]).elapsed = 3 ∧
    (run_loopback_metrics [0, 1, 6/5, 2, 5/2, 3] [1, 2]).throughput = 1 ∧
    round ((run_loopback_metrics [0, 1, 6/5, 2, 5/2, 3] [1, 2]).throughput * 100) ≠
      (133 : ℤ) := by
  have ht : (run_loopback_metrics [0, 1, 6/5, 2, 5/2, 3] [1, 2]).throughput = 1 := by
    norm_num [run_loopback_metrics, collectRtts]
  refine ⟨?_, ?_, ht, ?_⟩
  · norm_num [run_loopback_metrics, collectRtts]
  · norm_num [run_loopback_metrics, collectRtts]
  · rw [ht]
    norm_num [round_eq]

/-- C2 (amended): with the six clock readings 0.0, 1.0, 1.2, 2.0, 2.5, 3.0 and
two packets whose recovered lengths sum to 4 bytes (two 2-byte packets, as in
the repository's metrics test), the loop reports latency samples [0.2, 0.5]
(min 0.2, mean 0.35, max 0.5) and throughput 4/3 bytes/second — printed to
two decimals as 1.33 — over elapsed time 3.0. -/
theorem C2_loopback_metrics :
    run_loopback_metrics [0, 1, 6/5, 2, 5/2, 3] [2, 2] =
      { rtts := [1/5, 1/2], rtt_min := 1/5, rtt_avg := 7/20, rtt_max := 1/2,
        elapsed := 3, throughput := 4/3 } ∧
    round ((run_loopback_metrics [0, 1, 6/5, 2, 5/2, 3] [2, 2]).throughput * 100) =
      (133 : ℤ) := by
  have ht : (run_loopback_metrics [0, 1, 6/5, 2, 5/2, 3] [2, 2]).throughput = 4/3 := by
    norm_num [run_loopback_metrics, collectRtts]
  constructor
  · norm_num [run_loopback_metrics, collectRtts]
  · rw [ht]
    norm_num [round_eq]

/-- C3: Packet framing round trip: for every packet `Q` with
`len(Q) ≤ FRAME_SIZE - 4`, `packet_to_frame Q` succeeds with a frame of
exactly `FRAME_SIZE` bytes, and `frame_to_packet` of that frame returns
exactly `Q`. -/
theorem C3_packet_roundtrip (Q : List Nat) (h : Q.length ≤ FRAME_SIZE - 4) :
    ∃ F, packet_to_frame Q = Except.ok F ∧ F.length = FRAME_SIZE ∧
      frame_to_packet F = Except.ok Q := by
  refine ⟨_, packet_to_frame_ok Q h, packet_frame_length Q h, ?_⟩
  have hq32 : Q.length < 4294967296 := by rw [frame_size_eq] at h; omega
  have htake4 : (le32 Q.length ++ Q ++
      List.replicate (FRAME_SIZE - 4 - Q.length) 0).take 4 = le32 Q.length := by
    rw [List.append_assoc]
    rw [show (4 : Nat) = (le32 Q.length).length from rfl]
    exact List.take_left _ _
  have hdrop4 : (le32 Q.length ++ Q ++
      List.replicate (FRAME_SIZE - 4 - Q.length) 0).drop 4 =
      Q ++ List.replicate (FRAME_SIZE - 4 - Q.length) 0 := by
    rw [List.append_assoc]
    rw [show (4 : Nat) = (le32 Q.length).length from rfl]
    exact List.drop_left _ _
  rw [frame_to_packet, if_neg (not_ne_iff.mpr (packet_frame_length Q h)), htake4,
    le32dec_le32 _ hq32, if_neg (by omega), hdrop4, List.take_left]

/-- C3 witness: the empty packet round-trips through a `FRAME_SIZE`-byte
frame. -/
theorem C3_packet_roundtrip_witness :
    ∃ F, packet_to_frame ([] : List Nat) = Except.ok F ∧ F.length = FRAME_SIZE ∧
      frame_to_packet F = Except.ok ([] : List Nat) :=
  C3_packet_roundtrip [] (by simp)

/-- C4: `packet_to_frame` fails with the packet-too-large error if and only if
`len(packet) > FRAME_SIZE - 4`; for every packet within the limit it returns a
buffer of exactly `FRAME_SIZE` bytes: the 4-byte little-endian length prefix
equal to `len(packet)`, then the packet bytes, then zero fill. -/
theorem C4_pack_characterization (packet : List Nat) :
    (packet_to_frame packet = Except.error "Packet too large for a single frame" ↔
      FRAME_SIZE - 4 < packet.length) ∧
    (packet.length ≤ FRAME_SIZE - 4 →
      packet_to_frame packet = Except.ok (le32 packet.length ++ packet ++
        List.replicate (FRAME_SIZE - 4 - packet.length) 0) ∧
      (le32 packet.length ++ packet ++
        List.replicate (FRAME_SIZE - 4 - packet.length) 0).length = FRAME_SIZE) := by
  constructor
  · constructor
    · intro h
      by_contra hlen
      rw [packet_to_frame, if_neg hlen] at h
      exact absurd h (by simp)
    · intro h
      rw [packet_to_frame, if_pos h]
  · intro h
    exact ⟨packet_to_frame_ok packet h, packet_frame_length packet h⟩

/-- C4 witness: a packet of `FRAME_SIZE - 3` bytes is rejected, and the empty
packet packs into the zero-length-prefixed zero-padded frame. -/
theorem C4_pack_characterization_witness :
    (packet_to_frame (List.replicate (FRAME_SIZE - 3) 0) =
        Except.error "Packet too large for a single frame" ↔
      FRAME_SIZE - 4 < (List.replicate (FRAME_SIZE - 3) 0).length) ∧
    (packet_to_frame [] = Except.ok (le32 ([] : List Nat).length ++ ([] : List Nat) ++
        List.replicate (FRAME_SIZE - 4 - ([] : List Nat).length) 0) ∧
      (le32 ([] : List Nat).length ++ ([] : List Nat) ++
        List.replicate (FRAME_SIZE - 4 - ([] : List Nat).length) 0).length = FRAME_SIZE) :=
  ⟨(C4_pack_characterization (List.replicate (FRAME_SIZE - 3) 0)).1,
   (C4_pack_characterization []).2 (by simp)⟩

/-- C5: `frame_to_packet` fails with the invalid-frame-length error if and
only if `len(frame) ≠ FRAME_SIZE`; otherwise it fails with the
corrupted-frame-header error if and only if the 4-byte little-endian length
prefix exceeds `FRAME_SIZE - 4`; otherwise it returns exactly the slice of
the frame from byte 4 to byte `4 + length`. -/
theorem C5_unpack_characterization (frame : List Nat) :
    (frame_to_packet frame = Except.error "Invalid frame length" ↔
      frame.length ≠ FRAME_SIZE) ∧
    (frame.length = FRAME_SIZE →
      (frame_to_packet frame = Except.error "Corrupted frame header" ↔
        FRAME_SIZE - 4 < le32dec (frame.take 4))) ∧
    (frame.length = FRAME_SIZE → le32dec (frame.take 4) ≤ FRAME_SIZE - 4 →
      frame_to_packet frame = Except.ok ((frame.drop 4).take (le32dec (frame.take 4)))) := by
  refine ⟨⟨?_, ?_⟩, ?_, ?_⟩
  · intro h
    by_contra hlen
    rw [frame_to_packet, if_neg (by simp [hlen])] at h
    by_cases hhdr : FRAME_SIZE - 4 < le32dec (frame.take 4)
    · rw [if_pos hhdr] at h
      simp only [Except.error.injEq] at h
      exact absurd h (by decide)
    · rw [if_neg hhdr] at h
      exact absurd h (by simp)
  · intro h
    rw [frame_to_packet, if_pos h]
  · intro hlen
    constructor
    · intro h
      by_contra hhdr
      push_neg at hhdr
      rw [frame_to_packet, if_neg (by simp [hlen]), if_neg (by omega)] at h
      exact absurd h (by simp)
    · intro h
      rw [frame_to_packet, if_neg (by simp [hlen]), if_pos h]
  · intro hlen hhdr
    rw [frame_to_packet, if_neg (by simp [hlen]), if_neg (by omega)]

/-- C5 witness: the empty frame is rejected for its length, and an all-zero
`FRAME_SIZE`-byte frame (length prefix 0) unpacks to the declared slice. -/
theorem C5_unpack_characterization_witness :
    (frame_to_packet [] = Except.error "Invalid frame length" ↔
      ([] : List Nat).length ≠ FRAME_SIZE) ∧
    frame_to_packet (List.replicate FRAME_SIZE 0) =
      Except.ok (((List.replicate FRAME_SIZE 0).drop 4).take
        (le32dec ((List.replicate FRAME_SIZE 0).take 4))) := by
  constructor
  · exact (C5_unpack_characterization []).1
  · refine (C5_unpack_characterization (List.replicate FRAME_SIZE 0)).2.2 (by simp) ?_
    have ht : (List.replicate FRAME_SIZE 0).take 4 = List.replicate 4 0 := by
      rw [List.take_replicate]
      rw [Nat.min_eq_left (by rw [frame_size_eq]; norm_num)]
    rw [ht]
    rw [frame_size_eq]
    decide

/-- C6: Header rejection without partial writes: a file shorter than the
header fails with the incomplete-header error, and a file whose magic tag or
geometry fields differ from the build-time constants fails with the
invalid-container error; in both cases decode returns before the output file
is opened, so no output file is created (the `none` component). -/
theorem C6_header_rejection :
    (∀ file : List Nat, file.length < HEADER_SIZE →
      decode file = (Except.error "Incomplete KFE header", none)) ∧
    (∀ file : List Nat, HEADER_SIZE ≤ file.length →
      file.take 4 ≠ MAGIC ∨ le32dec (file.drop 4) ≠ WIDTH ∨
        le32dec (file.drop 8) ≠ HEIGHT ∨ le32dec (file.drop 12) ≠ CHANNELS →
      decode file = (Except.error "Invalid KFE file", none)) := by
  constructor
  · intro file h
    simp only [decode, _read_header]
    rw [if_pos h]
  · intro file hlen hbad
    simp only [decode, _read_header]
    rw [if_neg (by omega), if_pos hbad]

/-- C6 witness: the empty file is rejected as an incomplete header, and 28
zero bytes (wrong magic) are rejected as an invalid container; neither
creates an output file. -/
theorem C6_header_rejection_witness :
    decode [] = (Except.error "Incomplete KFE header", none) ∧
    decode (List.replicate 28 0) = (Except.error "Invalid KFE file", none) := by
  refine ⟨C6_header_rejection.1 [] (by simp [HEADER_SIZE]),
    C6_header_rejection.2 (List.replicate 28 0) (by simp [HEADER_SIZE]) ?_⟩
  left
  decide

/-- C7: Decode frame-level failures: for a container with a valid header
declaring `ds` payload bytes and `fc` frames, decode fails with the
incomplete-frame error when the body holds fewer than `fc * FRAME_SIZE`
bytes (some read comes up short before `fc` frames are consumed), and fails
with the size-mismatch error when the body holds all `fc` frames but the
remaining-payload counter (`ds - fc * FRAME_SIZE`) is still nonzero. -/
theorem C7_decode_frame_failures (ds fc : Nat) (body : List Nat)
    (hds : ds < 18446744073709551616) (hfc : fc < 4294967296) :
    (body.length < fc * FRAME_SIZE →
      (decode (mkHeader ds fc ++ body)).1 = Except.error "Incomplete frame data") ∧
    (fc * FRAME_SIZE ≤ body.length → fc * FRAME_SIZE < ds →
      (decode (mkHeader ds fc ++ body)).1 = Except.error "Data size mismatch") := by
  constructor
  · intro hshort
    simp only [decode, read_header_mkHeader _ _ _ hds hfc,
      decodeLoop_short fc ds body hshort]
  · intro h1 h2
    simp only [decode, read_header_mkHeader _ _ _ hds hfc,
      decodeLoop_mismatch fc ds body h1 h2]

/-- C7 witness: a header declaring one frame with an empty body hits the
incomplete-frame error; a header declaring one payload byte but zero frames
hits the size-mismatch error. -/
theorem C7_decode_frame_failures_witness :
    (decode (mkHeader 1 1 ++ [])).1 = Except.error "Incomplete frame data" ∧
    (decode (mkHeader 1 0 ++ [])).1 = Except.error "Data size mismatch" := by
  constructor
  · exact (C7_decode_frame_failures 1 1 [] (by norm_num) (by norm_num)).1
      (by rw [frame_size_eq]; norm_num)
  · exact (C7_decode_frame_failures 1 0 [] (by norm_num) (by norm_num)).2
      (by rw [frame_size_eq]; norm_num) (by rw [frame_size_eq]; norm_num)

/-- C8 counterexample: at payload length `2^29 * FRAME_SIZE + 1` encode
succeeds, but the header's declared frame count `2^29` is not
`ceil(payload_size / FRAME_SIZE)` (which is `2^29 + 1`), and the output's
length is not `HEADER_SIZE` plus the declared frame count times
`FRAME_SIZE` — the body holds one more frame than declared. -/
theorem C8_counterexample :
    encode (List.replicate (2 ^ 29 * FRAME_SIZE + 1) 0) =
      Except.ok (mkHeader (2 ^ 29 * FRAME_SIZE + 1) (2 ^ 29) ++
        encodeBody (List.replicate (2 ^ 29 * FRAME_SIZE + 1) 0)) ∧
    (2 ^ 29 : Nat) ≠ (2 ^ 29 * FRAME_SIZE + 1 + FRAME_SIZE - 1) / FRAME_SIZE ∧
    (mkHeader (2 ^ 29 * FRAME_SIZE + 1) (2 ^ 29) ++
        encodeBody (List.replicate (2 ^ 29 * FRAME_SIZE + 1) 0)).length ≠
      HEADER_SIZE + 2 ^ 29 * FRAME_SIZE := by
  have h29 : (2 : Nat) ^ 29 = 536870912 := by norm_num
  refine ⟨encode_bug, ?_, ?_⟩
  · rw [frame_size_eq, h29]
    omega
  · rw [List.length_append, mkHeader_length, encodeBody_length,
      List.length_replicate, HEADER_SIZE, frame_size_eq, h29]
    omega

/-- C8 (amended): for every input of length at most `2^29 * FRAME_SIZE` (in
this range the source's float-based `math.ceil` provably equals the exact
ceiling), `encode` succeeds, the output is exactly
`HEADER_SIZE + frame_count * FRAME_SIZE` bytes with
`frame_count = ceil(payload_size / FRAME_SIZE)`, the header declares that
payload size and frame count, and the frame section is the payload followed
by zero padding up to a whole number of frames. -/
theorem C8_encode_output_size (P : List Nat) (h : P.length ≤ 2 ^ 29 * FRAME_SIZE) :
    ∃ C, encode P = Except.ok C ∧
      C.length = HEADER_SIZE + (P.length + FRAME_SIZE - 1) / FRAME_SIZE * FRAME_SIZE ∧
      _read_header C = Except.ok (P.length, (P.length + FRAME_SIZE - 1) / FRAME_SIZE,
        P ++ List.replicate
          ((P.length + FRAME_SIZE - 1) / FRAME_SIZE * FRAME_SIZE - P.length) 0) := by
  have hds : P.length < 18446744073709551616 := by
    rw [frame_size_eq] at h
    omega
  have hfc : (P.length + FRAME_SIZE - 1) / FRAME_SIZE < 4294967296 := by
    rw [frame_size_eq] at h ⊢
    omega
  refine ⟨_, encode_ok P h, ?_, ?_⟩
  · rw [List.length_append, mkHeader_length, encodeBody_length, HEADER_SIZE]
  · rw [encodeBody_spec]
    exact read_header_mkHeader _ _ _ hds hfc

/-- C8 witness: the empty input (frame count 0) yields a header-only
container of exactly `HEADER_SIZE` bytes. -/
theorem C8_encode_output_size_witness :
    ∃ C, encode ([] : List Nat) = Except.ok C ∧
      C.length = HEADER_SIZE +
        (([] : List Nat).length + FRAME_SIZE - 1) / FRAME_SIZE * FRAME_SIZE ∧
      _read_header C = Except.ok (([] : List Nat).length,
        (([] : List Nat).length + FRAME_SIZE - 1) / FRAME_SIZE,
        ([] : List Nat) ++ List.replicate
          ((([] : List Nat).length + FRAME_SIZE - 1) / FRAME_SIZE * FRAME_SIZE -
            ([] : List Nat).length) 0) :=
  C8_encode_output_size [] (by simp)

/-- C9: Decode ignores padding content: two containers with the same valid
header and equal-length bodies that agree on the first `payload_size` bytes
(so they may differ only in padding beyond the payload, in particular in the
trailing padding of the final frame) decode to identical results, both in
outcome and in the bytes written to the output file. -/
theorem C9_padding_independence (ds fc : Nat) (b1 b2 : List Nat)
    (hds : ds < 18446744073709551616) (hfc : fc < 4294967296)
    (hlen : b1.length = b2.length) (hpre : b1.take ds = b2.take ds) :
    decode (mkHeader ds fc ++ b1) = decode (mkHeader ds fc ++ b2) := by
  simp only [decode, read_header_mkHeader _ _ _ hds hfc]
  rw [decodeLoop_congr fc ds b1 b2 hlen hpre]

/-- C9 witness: two (truncated) containers differing only beyond the 1-byte
payload decode identically. -/
theorem C9_padding_independence_witness :
    decode (mkHeader 1 1 ++ [9, 0]) = decode (mkHeader 1 1 ++ [9, 1]) :=
  C9_padding_independence 1 1 [9, 0] [9, 1] (by norm_num) (by norm_num)
    (by norm_num) (by decide)

/-- C10 (implicit): decode does not enforce
`frame_count = ceil(payload_size / FRAME_SIZE)`: when the header declares
strictly more frames than the payload needs and the body supplies that many
full frames, decode succeeds and writes exactly the first `payload_size`
bytes of the frame data. -/
theorem C10_decode_ignores_header_invariant (ds fc : Nat) (body : List Nat)
    (hds : ds < 18446744073709551616) (hfc : fc < 4294967296)
    (hgt : (ds + FRAME_SIZE - 1) / FRAME_SIZE < fc)
    (hbody : body.length = fc * FRAME_SIZE) :
    decode (mkHeader ds fc ++ body) = (Except.ok (body.take ds), some (body.take ds)) := by
  have hle : ds ≤ fc * FRAME_SIZE := by
    have h1 := le_ceil_mul ds
    rw [frame_size_eq] at h1 hgt ⊢
    omega
  simp only [decode, read_header_mkHeader _ _ _ hds hfc,
    decodeLoop_ok fc ds body hle (le_of_eq hbody.symm)]

/-- C10 witness: an empty payload with one declared (all-zero) frame decodes
successfully to the empty output. -/
theorem C10_decode_ignores_header_invariant_witness :
    decode (mkHeader 0 1 ++ List.replicate FRAME_SIZE 0) =
      (Except.ok ((List.replicate FRAME_SIZE 0).take 0),
       some ((List.replicate FRAME_SIZE 0).take 0)) :=
  C10_decode_ignores_header_invariant 0 1 (List.replicate FRAME_SIZE 0)
    (by norm_num) (by norm_num) (by rw [frame_size_eq]; norm_num) (by simp)

end KFE
